import Mathlib

/-!
Verification development for the SheetWorkflowAtomation tabular merge engine.

Shallow embedding of:
  * `backend/app/core/engine.py`   (`WorkflowEngine`)
  * `backend/app/core/merge_engine.py` (`MergeEngine`, key-universe part)
  * `backend/app/core/differ.py`   (`DiffGenerator`)
  * `backend/app/models/diff.py`   (diff data model)
and, modelled from the spec where the source is absent, the conditional
rule engine's action application (spec sections 4.4 and 4.5).

Cells are modelled by `Val`; pandas NaN / Python None are both `Val.vNull`.
Numbers use `Q`, exact fractions with cross-multiplication equality (no claim
here depends on float rounding, so exact rationals model Python floats; the
representation is unnormalized so that every operation reduces in the
kernel).  Python dictionaries appear as association lists in insertion
order, matching Python 3.7+ iteration order.
-/

/-- An exact fraction.  Invariant maintained by all constructors below:
`den > 0`.  Equality of the represented rationals is `Q.beq`. -/
structure Q where
  num : Int
  den : Int
deriving DecidableEq, Repr

/-- Build a fraction, normalizing only the sign of the denominator. -/
def Q.mkSign (n d : Int) : Q :=
  if d < 0 then ⟨-n, -d⟩ else ⟨n, d⟩

/-- Embed an integer. -/
def Q.ofInt (n : Int) : Q := ⟨n, 1⟩

/-- Embed a natural number. -/
def Q.ofNat (n : Nat) : Q := ⟨n, 1⟩

/-- Equality of the represented rationals (cross multiplication). -/
def Q.beq (a b : Q) : Bool := a.num * b.den == b.num * a.den

/-- Strict order of the represented rationals (valid for positive
denominators, which all constructors maintain). -/
def Q.blt (a b : Q) : Bool := a.num * b.den < b.num * a.den

def Q.add (a b : Q) : Q := ⟨a.num * b.den + b.num * a.den, a.den * b.den⟩

def Q.sub (a b : Q) : Q := ⟨a.num * b.den - b.num * a.den, a.den * b.den⟩

def Q.mul (a b : Q) : Q := ⟨a.num * b.num, a.den * b.den⟩

def Q.div (a b : Q) : Q := Q.mkSign (a.num * b.den) (a.den * b.num)

def Q.neg (a : Q) : Q := ⟨-a.num, a.den⟩

/-- `10 ^ p` for an integer exponent `p`. -/
def Q.expTen (p : Int) : Q :=
  if 0 ≤ p then ⟨(10 : Int) ^ p.toNat, 1⟩ else ⟨1, (10 : Int) ^ (-p).toNat⟩

/-- A single cell value: string, number, boolean or null (None/NaN). -/
inductive Val where
  | vNull
  | vStr (s : String)
  | vNum (q : Q)
  | vBool (b : Bool)
deriving DecidableEq, Repr

/-- `pd.isna` on a scalar: only the null cell is NA. -/
def Val.isNa : Val → Bool
  | .vNull => true
  | _ => false

/-- Python `str()` on a cell value.  Numbers render as `num/den`; the exact
digits of numeric renderings are never load-bearing below. -/
def pyStr : Val → String
  | .vNull => "None"
  | .vStr s => s
  | .vNum q => if q.den = 1 then toString q.num else toString q.num ++ "/" ++ toString q.den
  | .vBool b => if b then "True" else "False"

/-- pandas `.astype(str)` on a cell: NaN renders as the string "nan". -/
def pdAstypeStr (v : Val) : String :=
  if v.isNa then "nan" else pyStr v

/-- Python `str.strip()`: drop whitespace from both ends.  (Implemented over
the character list so that proofs can evaluate it.) -/
def pyStrip (s : String) : String :=
  ⟨((s.toList.dropWhile Char.isWhitespace).reverse.dropWhile Char.isWhitespace).reverse⟩

/-- Value of a digit list, most significant first. -/
def digitsToNat (l : List Char) : Nat :=
  l.foldl (fun a c => a * 10 + (c.toNat - 48)) 0

/-- Parse an unsigned decimal mantissa `digits[.digits]` (at least one digit). -/
def parseMantissa (l : List Char) : Option Q :=
  match l.splitOn '.' with
  | [ip] =>
      if ip ≠ [] ∧ ip.all Char.isDigit then some (Q.ofNat (digitsToNat ip)) else none
  | [ip, fp] =>
      if (ip ≠ [] ∨ fp ≠ []) ∧ ip.all Char.isDigit ∧ fp.all Char.isDigit then
        some ⟨digitsToNat ip * (10 : Int) ^ fp.length + digitsToNat fp, (10 : Int) ^ fp.length⟩
      else none
  | _ => none

/-- Parse an optional sign followed by a mantissa. -/
def parseSigned (l : List Char) : Option Q :=
  match l with
  | '+' :: rest => parseMantissa rest
  | '-' :: rest => (parseMantissa rest).map Q.neg
  | _ => parseMantissa l

/-- Parse an optionally signed integer exponent. -/
def parseExp (l : List Char) : Option Int :=
  match l with
  | '+' :: rest =>
      if rest ≠ [] ∧ rest.all Char.isDigit then some (digitsToNat rest) else none
  | '-' :: rest =>
      if rest ≠ [] ∧ rest.all Char.isDigit then some (-(digitsToNat rest : Int)) else none
  | _ => if l ≠ [] ∧ l.all Char.isDigit then some (digitsToNat l) else none

/-- Python `float(s)` on a string: surrounding whitespace stripped, optional
sign, decimal mantissa, optional `e`/`E` exponent.  (`inf`/`nan` literals are
outside the exact-number model and parse as failure.) -/
def parseFloat (s : String) : Option Q :=
  let t := ((pyStrip s).toList).map Char.toLower
  match t.splitOn 'e' with
  | [m] => parseSigned m
  | [m, ex] =>
      match parseSigned m, parseExp ex with
      | some q, some p => some (q.mul (Q.expTen p))
      | _, _ => none
  | _ => none

/-- Python `float(v)` on a cell value; `none` models the raised
`ValueError`/`TypeError` that callers catch. -/
def pyFloat : Val → Option Q
  | .vNull => none
  | .vStr s => parseFloat s
  | .vNum q => some q
  | .vBool b => some (if b then Q.ofNat 1 else Q.ofNat 0)

/-- The numeric content of a cell for Python `==`: numbers and booleans
compare numerically (`True == 1`), strings do not. -/
def Val.numQ : Val → Option Q
  | .vNum q => some q
  | .vBool b => some (if b then Q.ofNat 1 else Q.ofNat 0)
  | _ => none

/-- Python native `==` between two cell values. -/
def pyEq (a b : Val) : Bool :=
  match a, b with
  | .vNull, .vNull => true
  | .vStr s, .vStr t => s == t
  | a, b =>
      match a.numQ, b.numQ with
      | some x, some y => x.beq y
      | _, _ => false

/-- One table row, as a pandas `Series`: column labels plus cell values. -/
structure Row where
  index : List String
  cells : List Val
deriving DecidableEq, Repr

/-- `row[c]` / `Series.get`: the cell at the first column labelled `c`. -/
def Row.get? (r : Row) (c : String) : Option Val :=
  match r.index.indexOf? c with
  | some i => r.cells.get? i
  | none => none

/-- The cell at column `c`, defaulting to null. -/
def Row.getD (r : Row) (c : String) : Val :=
  (r.get? c).getD .vNull

/-- An in-memory table: named columns and an ordered row sequence. -/
structure DataFrame where
  cols : List String
  rows : List (List Val)
deriving DecidableEq, Repr

/-- `df.iloc[i]` as an optional row. -/
def DataFrame.rowAt? (df : DataFrame) (i : Nat) : Option Row :=
  (df.rows.get? i).map (fun r => ⟨df.cols, r⟩)

/-- The column `c` of a table, as the list of its cells in row order. -/
def DataFrame.colValues (df : DataFrame) (c : String) : List Val :=
  df.rows.map (fun r => (Row.mk df.cols r).getD c)

/-- `df.at[i, c]`: positional cell access (default RangeIndex). -/
def DataFrame.cellAt (df : DataFrame) (i : Nat) (c : String) : Val :=
  ((df.rowAt? i).map (fun r => r.getD c)).getD .vNull

/-- `pd.DataFrame()`: the empty table. -/
def emptyDf : DataFrame := ⟨[], []⟩

/-! ## `WorkflowEngine` key resolution (`engine.py` 41-185) -/

/-- `WorkflowEngine._clean_key_value`: normalize a key value — convert to
string, strip whitespace; `none` if NA or empty after stripping. -/
def cleanKeyValue (v : Val) : Option String :=
  if v.isNa then none
  else
    let s := pyStrip (pyStr v)
    if s = "" then none else some s

/-- Lines 120-122 of `engine.py`: `df[key_column].dropna()` then
string-convert and strip each key, in row order. -/
def cleanedStrings (df : DataFrame) (kc : String) : List String :=
  ((df.colValues kc).filter (fun v => !v.isNa)).map (fun v => pyStrip (pyStr v))

/-- Lines 123-129: drop empty strings and deduplicate preserving first-seen
order (the `seen` set loop). -/
def dedupNonemptyAux : List String → List String → List String
  | _, [] => []
  | seen, k :: rest =>
      if k ≠ "" ∧ k ∉ seen then k :: dedupNonemptyAux (k :: seen) rest
      else dedupNonemptyAux seen rest

def dedupNonempty (l : List String) : List String := dedupNonemptyAux [] l

/-- `key_mappings.get(file_id)` combined with Python truthiness
(`if not key_column`): an empty-string mapping counts as missing. -/
def mappingOf (kms : List (String × String)) (fid : String) : Option String :=
  match kms.lookup fid with
  | some kc => if kc = "" then none else some kc
  | none => none

/-- `Optional[str]` under Python truthiness: `None` and `""` are falsy. -/
def strTruthy : Option String → Option String
  | some s => if s = "" then none else some s
  | none => none

/-- `WorkflowEngine._get_keys_from_file` (lines 98-130).  Warning messages
render without the quote characters the source puts around names. -/
def getKeysFromFile (fid : String) (kms : List (String × String))
    (dfs : List (String × DataFrame)) : Option (List String) × List String :=
  match dfs.lookup fid with
  | none => (none, [s!"File {fid} not found in provided dataframes"])
  | some df =>
      match mappingOf kms fid with
      | none => (none, [s!"No key column mapping for file {fid}"])
      | some kc =>
          if kc ∈ df.cols then
            (some (dedupNonempty (cleanedStrings df kc)), [])
          else
            (none, [s!"Key column {kc} not found in file"])

/-- The cleaned key set of one file, as an order-preserving duplicate-free
list (`set(k for k in df[kc].dropna().astype(str).str.strip().unique() if k)`:
same members as first-seen dedup of the stripped non-NA strings). -/
def cleanedKeySet (df : DataFrame) (kc : String) : List String :=
  dedupNonempty (cleanedStrings df kc)

/-- The cleaned key sets of every supplied file whose mapping is truthy and
whose mapped column exists (the filter in lines 141-149 / 171-178). -/
def mappedKeySets (kms : List (String × String))
    (dfs : List (String × DataFrame)) : List (List String) :=
  dfs.filterMap (fun p =>
    match mappingOf kms p.1 with
    | some kc => if kc ∈ p.2.cols then some (cleanedKeySet p.2 kc) else none
    | none => none)

/-- The `intersection = intersection & key_set` fold (lines 156-158); Python
set intersection modelled membership-exactly on duplicate-free lists. -/
def interFold (s : List String) (rest : List (List String)) : List String :=
  rest.foldl (fun acc t => acc.filter (fun k => k ∈ t)) s

/-- `WorkflowEngine._get_intersection_keys` (lines 132-160). -/
def getIntersectionKeys (kms : List (String × String))
    (dfs : List (String × DataFrame)) : Option (List String) × List String :=
  match mappedKeySets kms dfs with
  | [] => (none, ["No valid key columns found in any file"])
  | s :: rest => (some (interFold s rest), [])

/-- The `all_keys = all_keys | keys` fold (lines 169-179). -/
def unionFold (sets : List (List String)) : List String :=
  sets.foldl (fun acc t => acc ++ t.filter (fun k => k ∉ acc)) []

/-- `WorkflowEngine._get_union_keys` (lines 162-185). -/
def getUnionKeys (kms : List (String × String))
    (dfs : List (String × DataFrame)) : Option (List String) × List String :=
  let allKeys := unionFold (mappedKeySets kms dfs)
  if allKeys = [] then (none, ["No valid key columns found in any file"])
  else (some allKeys, [])

/-- One configured file (`{"id": ..., "name": ...}`). -/
structure FileCfg where
  id : String
  name : String
deriving DecidableEq, Repr

/-- `WorkflowEngine._get_key_values_for_join_type` (lines 41-85). -/
def getKeyValuesForJoinType (joinType : String) (primaryFileId : String)
    (kms : List (String × String)) (dfs : List (String × DataFrame))
    (filesCfg : List FileCfg) : Option (List String) × List String :=
  if joinType = "inner" then getIntersectionKeys kms dfs
  else if joinType = "left" then getKeysFromFile primaryFileId kms dfs
  else if joinType = "right" then
    match strTruthy ((filesCfg.getLast?).map (fun f => f.id)) with
    | some lastId => getKeysFromFile lastId kms dfs
    | none => (none, ["No files available for right join"])
  else if joinType = "full" then getUnionKeys kms dfs
  else getKeysFromFile primaryFileId kms dfs

/-! ## Column sources and the value evaluator (`engine.py` 314-488) -/

/-- One part of a `concat` source (`ConcatColumnPart`).  `Option` fields model
keys that may be missing from the config dict. -/
inductive ConcatPart where
  | literal (value : Option Val)
  | column (fileId : Option String) (column : Option String)
  | other
deriving DecidableEq, Repr

/-- One operand of a `math` source (`MathOperand`). -/
inductive Operand where
  | literal (value : Option Val)
  | column (fileId : Option String) (column : Option String)
  | other
deriving DecidableEq, Repr

/-- A column source (`ColumnSource` tagged dict).  `custom` also covers a
missing `type` key (`source.get("type", "custom")`); `other` is an
unrecognized tag. -/
inductive Source where
  | direct (fileId : Option String) (column : Option String)
  | concat (parts : List ConcatPart) (separator : String)
  | math (operation : String) (operands : List Operand)
  | custom (defaultValue : Val)
  | other
deriving DecidableEq, Repr

/-- The per-row correspondence: for each supplied file id, its matched row or
absence, in `dataframes` order. -/
def FileRows : Type := List (String × Option Row)

/-- `file_rows.get(file_id)`: a missing key and a stored `None` both yield
Python `None`. -/
def lookupRow (fileRows : FileRows) (fid : String) : Option Row :=
  match List.lookup fid fileRows with
  | some r => r
  | none => none

/-- `WorkflowEngine._compute_direct` (lines 336-357). -/
def computeDirect (fileId column : Option String) (fileRows : FileRows) : Val :=
  match strTruthy fileId, strTruthy column with
  | some fid, some col =>
      match lookupRow fileRows fid with
      | none => .vNull
      | some row =>
          if col ∈ row.index then
            let v := row.getD col
            if v.isNa then .vNull else v
          else .vNull
  | _, _ => .vNull

/-- The string one concat part contributes; `none` when the part type is
unrecognized and nothing is appended (lines 369-389). -/
def concatPartStr (fileRows : FileRows) : ConcatPart → Option String
  | .literal v => some (match v with | some x => pyStr x | none => "")
  | .column fid col =>
      match strTruthy fid, strTruthy col with
      | some f, some c =>
          match lookupRow fileRows f with
          | some row =>
              if c ∈ row.index then
                let v := row.getD c
                some (if v.isNa then "" else pyStr v)
              else some ""
          | none => some ""
      | _, _ => some ""
  | .other => none

/-- `WorkflowEngine._compute_concat` (lines 359-391). -/
def computeConcat (parts : List ConcatPart) (separator : String)
    (fileRows : FileRows) : Val :=
  .vStr (String.intercalate separator (parts.filterMap (concatPartStr fileRows)))

/-- The whitespace-trimmed fallback column scan of `_compute_math`
(lines 438-450): the first label whose stripped form matches and whose cell
is non-NA gives `float(cell)` (or `0.0` on conversion failure); an NA cell at
a matching label does not stop the scan. -/
def findTrimmedValue (row : Row) (column : String) : List String → Option Q
  | [] => none
  | c :: rest =>
      if pyStrip c = pyStrip column ∧ !(row.getD c).isNa then
        some ((pyFloat (row.getD c)).getD (Q.ofNat 0))
      else findTrimmedValue row column rest

/-- The value list one operand appends in `_compute_math` (lines 407-457):
empty for a skipped operand, a singleton otherwise. -/
def resolveOperand (fileRows : FileRows) : Operand → List Q
  | .literal v =>
      match v with
      | none => []
      | some x => [(pyFloat x).getD (Q.ofNat 0)]
  | .column fid col =>
      match strTruthy fid, strTruthy col with
      | some f, some c =>
          match lookupRow fileRows f with
          | some row =>
              if c ∈ row.index then
                let cell := row.getD c
                if !cell.isNa then [(pyFloat cell).getD (Q.ofNat 0)]
                else [Q.ofNat 0]
              else
                match findTrimmedValue row c row.index with
                | some q => [q]
                | none => [Q.ofNat 0]
          | none => [Q.ofNat 0]
      | _, _ => [Q.ofNat 0]
  | .other => []

/-- The `divide` fold (lines 476-483): divide successively, stopping with a
null result and one warning at the first zero divisor. -/
def divFold (acc : Q) : List Q → Option Q × List String
  | [] => (some acc, [])
  | v :: rest =>
      if v.beq (Q.ofNat 0) then (none, ["Division by zero encountered"])
      else divFold (acc.div v) rest

/-- `WorkflowEngine._compute_math` (lines 393-488). -/
def computeMath (operation : String) (operands : List Operand)
    (fileRows : FileRows) : Option Q × List String :=
  if operands = [] then (none, [])
  else
    match operands.flatMap (resolveOperand fileRows) with
    | [] => (none, [])
    | v :: vs =>
        if operation = "add" then (some ((v :: vs).foldl Q.add (Q.ofNat 0)), [])
        else if operation = "subtract" then (some (vs.foldl Q.sub v), [])
        else if operation = "multiply" then
          (some ((v :: vs).foldl Q.mul (Q.ofNat 1)), [])
        else if operation = "divide" then divFold v vs
        else (none, [])

/-- `WorkflowEngine._compute_column_value` (lines 314-334), returning the cell
value and the warnings the evaluation appended. -/
def computeColumnValue (source : Source) (fileRows : FileRows) :
    Val × List String :=
  match source with
  | .direct fid col => (computeDirect fid col fileRows, [])
  | .concat parts sep => (computeConcat parts sep fileRows, [])
  | .math op ops =>
      match computeMath op ops fileRows with
      | (some q, w) => (.vNum q, w)
      | (none, w) => (.vNull, w)
  | .custom dv => (dv, [])
  | .other => (.vNull, [])

/-! ## `WorkflowEngine.execute` (`engine.py` 187-312) -/

/-- One output column config (`{"name", "order", "source"}`). -/
structure OutputCol where
  name : String
  order : Int
  source : Source
deriving DecidableEq, Repr

/-- `{"joinType": ..., "primaryFileId": ...}`; `none` fields model missing
dict keys. -/
structure JoinCfg where
  joinType : Option String
  primaryFileId : Option String
deriving DecidableEq, Repr

/-- The workflow configuration slice the engine reads. `keyColumn` is the
`mappings` dict of the key column config; `none` models an absent (or falsy)
`keyColumn` entry. -/
structure Cfg where
  files : List FileCfg
  keyColumn : Option (List (String × String))
  joinConfig : Option JoinCfg
  outputColumns : List OutputCol
deriving DecidableEq, Repr

/-- Stable insertion into a list sorted by `order` (`sorted` is stable). -/
def insertOrdered (c : OutputCol) : List OutputCol → List OutputCol
  | [] => [c]
  | d :: rest => if c.order < d.order then c :: d :: rest else d :: insertOrdered c rest

/-- `sorted(self.output_columns, key=lambda c: c.get("order", 0))`. -/
def sortByOrder (l : List OutputCol) : List OutputCol :=
  l.foldl (fun acc c => insertOrdered c acc) []

/-- Lines 210-215: resolved join type (default "left"). -/
def resolvedJoinType (cfg : Cfg) : String :=
  match cfg.joinConfig with
  | none => "left"
  | some jc => jc.joinType.getD "left"

/-- Lines 210-215: resolved primary file id (default: first configured file). -/
def resolvedPrimary (cfg : Cfg) : Option String :=
  let base := (cfg.files.head?).map (fun f => f.id)
  match cfg.joinConfig with
  | none => base
  | some jc => match jc.primaryFileId with | some p => some p | none => base

/-- An element of `key_values`: a cleaned key string (key-mapping path) or an
integer offset (positional path). -/
inductive KeyVal where
  | key (s : String)
  | pos (n : Nat)
deriving DecidableEq, Repr

/-- Python `str(key_value)`. -/
def KeyVal.pyStr : KeyVal → String
  | .key s => s
  | .pos n => toString n

/-- Lines 217-247: determine the `key_values` list, or an early empty-result
warning. -/
def resolveKeyValues (cfg : Cfg) (dfs : List (String × DataFrame)) :
    Option (List KeyVal) × List String :=
  match cfg.keyColumn with
  | some kms =>
      if kms = [] then (none, ["No key column mappings defined"])
      else
        match strTruthy (resolvedPrimary cfg) with
        | none => (none, ["Primary file not found in provided dataframes"])
        | some p =>
            match List.lookup p dfs with
            | none => (none, ["Primary file not found in provided dataframes"])
            | some _ =>
                match getKeyValuesForJoinType (resolvedJoinType cfg) p kms dfs cfg.files with
                | (none, w) => (none, w)
                | (some ks, w) => (some (ks.map KeyVal.key), w)
  | none =>
      match strTruthy ((cfg.files.head?).map (fun f => f.id)) with
      | some fid0 =>
          match List.lookup fid0 dfs with
          | some df0 => (some ((List.range df0.rows.length).map KeyVal.pos), [])
          | none => (none, ["No files available to process"])
      | none => (none, ["No files available to process"])

/-- Lines 262-282: the matched row of one file for the `idx`-th key value in
the key-mapping path, plus whether an unmatched key was recorded for this
file at this position. -/
def keyedFileRow (kms : List (String × String)) (fid : String) (df : DataFrame)
    (idx : Nat) (kv : KeyVal) : Option Row × Bool :=
  match mappingOf kms fid with
  | some kc =>
      if kc ∈ df.cols then
        match (df.rows.filter (fun r =>
            pyStrip (pdAstypeStr ((Row.mk df.cols r).getD kc)) = pyStrip kv.pyStr)).head? with
        | some r => (some ⟨df.cols, r⟩, false)
        | none => (none, true)
      else (df.rowAt? idx, false)
  | none => (df.rowAt? idx, false)

/-- Lines 256-289: the per-file row correspondence for the `idx`-th key value. -/
def buildFileRows (cfg : Cfg) (dfs : List (String × DataFrame)) (idx : Nat)
    (kv : KeyVal) : FileRows :=
  match cfg.keyColumn with
  | some kms => dfs.map (fun p => (p.1, (keyedFileRow kms p.1 p.2 idx kv).1))
  | none => dfs.map (fun p => (p.1, p.2.rowAt? idx))

/-- Lines 253, 274-276: the unmatched-key samples recorded for one file over
the whole key iteration (capped at the first 10). -/
def unmatchedKeysFor (kms : List (String × String)) (fid : String)
    (df : DataFrame) (keyVals : List KeyVal) : List String :=
  (((keyVals.enum).filter (fun p => (keyedFileRow kms fid df p.1 p.2).2)).map
    (fun p => p.2.pyStr)).take 10

/-- `self.file_map.get(file_id, {}).get("name", file_id)`; the dict
comprehension keeps the last config entry for a duplicated id. -/
def fileNameOf (cfg : Cfg) (fid : String) : String :=
  match (cfg.files.filter (fun f => f.id = fid)).getLast? with
  | some f => f.name
  | none => fid

/-- Lines 302-310: the aggregate unmatched-key warning for one file.  (The
source surrounds the file name with quote characters; they are omitted from
this rendering.) -/
def unmatchedWarning (name : String) (ks : List String) : String :=
  let sample := String.intercalate ", " (ks.take 5)
  let sample := if ks.length > 5 then sample ++ s!" (and {ks.length - 5} more...)" else sample
  s!"{name} had {ks.length}+ keys with no match: {sample}"

/-- `WorkflowEngine.execute` (lines 187-312).  The output table keeps one
column per sorted output column (the source's dict would collapse duplicate
output names; claims below never rely on duplicates). -/
def execute (cfg : Cfg) (dfs : List (String × DataFrame)) :
    DataFrame × List String :=
  if cfg.outputColumns = [] then (emptyDf, ["No output columns defined"])
  else
    let sortedCols := sortByOrder cfg.outputColumns
    match resolveKeyValues cfg dfs with
    | (none, w) => (emptyDf, w)
    | (some keyVals, w0) =>
        let rowsAndWarns := keyVals.enum.map (fun p =>
          let fileRows := buildFileRows cfg dfs p.1 p.2
          let cells := sortedCols.map (fun c => computeColumnValue c.source fileRows)
          (cells.map Prod.fst, (cells.map Prod.snd).flatten))
        let outDf : DataFrame := ⟨sortedCols.map (fun c => c.name), rowsAndWarns.map Prod.fst⟩
        let cellWarns := (rowsAndWarns.map Prod.snd).flatten
        let unmatchedWarns :=
          match cfg.keyColumn with
          | some kms =>
              dfs.filterMap (fun p =>
                let ks := unmatchedKeysFor kms p.1 p.2 keyVals
                if ks = [] then none
                else some (unmatchedWarning (fileNameOf cfg p.1) ks))
          | none => []
        (outDf, w0 ++ cellWarns ++ unmatchedWarns)

/-! ## `MergeEngine` key universe (`merge_engine.py` 37-96) -/

/-- First-seen-order deduplication under Python `==` (`pandas.unique`). -/
def dedupByPyEqAux : List Val → List Val → List Val
  | _, [] => []
  | seen, v :: rest =>
      if seen.any (fun w => pyEq w v) then dedupByPyEqAux seen rest
      else v :: dedupByPyEqAux (v :: seen) rest

def dedupByPyEq (l : List Val) : List Val := dedupByPyEqAux [] l

/-- `merge_engine.py` line 86: the merge key universe —
`base_df[base_key_column].dropna().unique().tolist()`.  Raw values: no
string conversion, no stripping, no empty-string filtering. -/
def mergeKeyValues (baseDf : DataFrame) (kc : String) : List Val :=
  dedupByPyEq ((baseDf.colValues kc).filter (fun v => !v.isNa))

/-- The merge workflow configuration slice (`MergeEngine.__init__`). -/
structure MergeCfg where
  files : List FileCfg
  keyColumn : Option (List (String × String))
  outputColumns : List OutputCol
deriving DecidableEq, Repr

/-- `MergeEngine.execute` lines 50-95: the key-universe stage, yielding
either key values (`inl`) or positional offsets (`inr`), or an early
empty-result warning. -/
def mergeResolveKeys (cfg : MergeCfg) (dfs : List (String × DataFrame)) :
    Option (List Val ⊕ List Nat) × List String :=
  if cfg.outputColumns = [] then (none, ["No output columns defined"])
  else
    match cfg.keyColumn with
    | some kms =>
        if kms = [] then (none, ["No key column mappings defined"])
        else
          match strTruthy ((cfg.files.head?).map (fun f => f.id)) with
          | none => (none, ["First file not found in provided dataframes"])
          | some fid0 =>
              match List.lookup fid0 dfs with
              | none => (none, ["First file not found in provided dataframes"])
              | some baseDf =>
                  match mappingOf kms fid0 with
                  | none => (none, ["No key column mapping for first file"])
                  | some kc =>
                      if kc ∈ baseDf.cols then
                        (some (.inl (mergeKeyValues baseDf kc)), [])
                      else (none, [s!"Key column {kc} not found in base file"])
    | none =>
        match strTruthy ((cfg.files.head?).map (fun f => f.id)) with
        | some fid0 =>
            match List.lookup fid0 dfs with
            | some baseDf => (some (.inr (List.range baseDf.rows.length)), [])
            | none => (none, ["No files available for merge"])
        | none => (none, ["No files available for merge"])

/-! ## Diff data model (`models/diff.py`) -/

inductive ChangeType where
  | added
  | removed
  | modified
  | unchanged
deriving DecidableEq, Repr

/-- `CellChange`: a single cell change. -/
structure CellChange where
  row : Nat
  column : String
  keyValue : String
  oldValue : Option Val
  newValue : Option Val
  changeType : ChangeType
  stepId : Option String
  stepName : Option String
deriving DecidableEq, Repr

/-- `RowChange`: changes for a single row. -/
structure RowChange where
  rowIndex : Nat
  keyValue : String
  cells : List CellChange
  hasWarning : Bool
  warningMessage : Option String
deriving DecidableEq, Repr

/-- `DiffSummary`. -/
structure DiffSummary where
  rowsAffected : Nat
  cellsModified : Nat
  totalRows : Nat
  warnings : Nat
  errors : Nat
deriving DecidableEq, Repr

/-- `Warning` (diff model). -/
structure DWarning where
  type : String
  message : String
  row : Option Nat
  column : Option String
deriving DecidableEq, Repr

/-- `DiffResult`. -/
structure DiffResult where
  summary : DiffSummary
  changes : List RowChange
  warnings : List DWarning
  columns : List String
  keyColumn : String
deriving DecidableEq, Repr

/-! ## `DiffGenerator` (`differ.py`) -/

/-- Lines 62-75 of `differ.py`: the new value is non-null and `float(...)`
succeeds with a negative result. -/
def isNegChange (c : CellChange) : Bool :=
  match c.newValue with
  | none => false
  | some v =>
      match pyFloat v with
      | some q => q.blt (Q.ofNat 0)
      | none => false

/-- Line 67's message (the source surrounds the column name with quote
characters; they are omitted from this rendering). -/
def negWarningMsg (col : String) : String :=
  s!"Value became negative in column {col}"

/-- Ascending insertion sort on row indices (`sorted(changes_by_row.items())`). -/
def insertNat (n : Nat) : List Nat → List Nat
  | [] => [n]
  | m :: rest => if n ≤ m then n :: m :: rest else m :: insertNat n rest

def sortNats (l : List Nat) : List Nat :=
  l.foldl (fun acc n => insertNat n acc) []

/-- First-seen-order deduplication of row indices (`defaultdict` keys). -/
def dedupNatsAux : List Nat → List Nat → List Nat
  | _, [] => []
  | seen, n :: rest =>
      if n ∈ seen then dedupNatsAux seen rest
      else n :: dedupNatsAux (n :: seen) rest

def dedupNats (l : List Nat) : List Nat := dedupNatsAux [] l

/-- The `negative_value` warnings one row group generates (lines 61-75). -/
def rowGroupWarnings (rowIdx : Nat) (group : List CellChange) : List DWarning :=
  (group.filter isNegChange).map (fun c =>
    ⟨"negative_value", negWarningMsg c.column, some rowIdx, some c.column⟩)

/-- The `RowChange` built for one row index (lines 54-83): the cells are the
changes of that row in arrival order; the warning message of the last
offending cell wins. -/
def mkRowChange (changes : List CellChange) (rowIdx : Nat) : RowChange :=
  let group := changes.filter (fun c => c.row == rowIdx)
  { rowIndex := rowIdx
    keyValue := ((group.head?).map (fun c => c.keyValue)).getD ""
    cells := group
    hasWarning := group.any isNegChange
    warningMessage :=
      ((group.filter isNegChange).getLast?).map (fun c => negWarningMsg c.column) }

/-- `DiffGenerator.generate` (lines 21-105). -/
def generate (original modified : DataFrame) (changes : List CellChange)
    (keyColumn : Option String) : DiffResult :=
  let kc1 : Option String :=
    match strTruthy keyColumn with
    | none => if changes ≠ [] then some ((original.cols.head?).getD "") else none
    | some k => some k
  let keyColStr := match kc1 with | some k => k | none => ""
  let rowsSorted := sortNats (dedupNats (changes.map (fun c => c.row)))
  let rowChanges := rowsSorted.map (mkRowChange changes)
  let warns := rowsSorted.flatMap (fun r =>
    rowGroupWarnings r (changes.filter (fun c => c.row == r)))
  { summary := ⟨rowsSorted.length, changes.length, modified.rows.length, warns.length, 0⟩
    changes := rowChanges
    warnings := warns
    columns := original.cols
    keyColumn := keyColStr }

/-- One cell comparison of `compare_dataframes` (lines 129-146): null-vs-null
is equal; any other inequality is a MODIFIED change with null preserved as
null. -/
def compareCell (idx : Nat) (col : String) (kv : String) (oldV newV : Val) :
    List CellChange :=
  let oldNa := oldV.isNa
  let newNa := newV.isNa
  if oldNa ∧ newNa then []
  else if oldNa ≠ newNa ∨ ¬(pyEq oldV newV) then
    [⟨idx, col, kv, if oldNa then none else some oldV,
      if newNa then none else some newV, .modified, none, none⟩]
  else []

/-- Line 123: `str(original_df.iloc[idx].get(key_column, idx))`. -/
def compareKeyValue (original : DataFrame) (keyColumn : String) (idx : Nat) :
    String :=
  match original.rowAt? idx with
  | some row =>
      match row.get? keyColumn with
      | some v => pyStr v
      | none => toString idx
  | none => toString idx

/-- `DiffGenerator.compare_dataframes` (lines 107-148): positional cell-by-cell
diff; the loop breaks past the shorter table and skips columns absent from
the modified table. -/
def compare_dataframes (original modified : DataFrame) (keyColumn : String) :
    List CellChange :=
  (List.range (min original.rows.length modified.rows.length)).flatMap (fun idx =>
    let kv := compareKeyValue original keyColumn idx
    original.cols.flatMap (fun col =>
      if col ∈ modified.cols then
        compareCell idx col kv (original.cellAt idx col) (modified.cellAt idx col)
      else []))

/-! ## Conditional rule engine (modelled from the spec) -/

/-- Modelled from the spec: the conditional rule engine (spec sections 4.4
and 4.5, `runRules`) is not present under the repository source; only its
`CellChange` data model is.  A `RuleAction` is one of the six action kinds of
section 4.5. -/
inductive RuleAction where
  | setValue (value : Val)
  | increment (sourceColumn : Option String) (value : Option Val)
  | decrement (sourceColumn : Option String) (value : Option Val)
  | copyFrom (sourceColumn : String)
  | clear
  | flag (value : Option Val)
deriving DecidableEq, Repr

/-- Modelled from the spec (section 4.5): numeric coercion for
increment/decrement — null coerces to 0, other values by `float`; `none`
means the coercion failed (non-numeric text). -/
def coerceNum (v : Val) : Option Q :=
  if v.isNa then some (Q.ofNat 0) else pyFloat v

/-- Modelled from the spec (section 4.5): the increment/decrement delta —
the `sourceColumn` cell of the matched source row if given (coerced,
null→0), else the configured literal value (default 0). -/
def deltaOf (srcRow : Option Row) (sc : Option String) (lit : Option Val) : Q :=
  match sc, srcRow with
  | some c, some row => (coerceNum (row.getD c)).getD (Q.ofNat 0)
  | some _, none => Q.ofNat 0
  | none, _ =>
      match lit with
      | some v => (coerceNum v).getD (Q.ofNat 0)
      | none => Q.ofNat 0

/-- Modelled from the spec (section 4.5): the new value an action computes
for a target cell holding `current`, given the matched source row. -/
def actionNewValue (act : RuleAction) (current : Val) (srcRow : Option Row) : Val :=
  match act with
  | .setValue v => v
  | .increment sc lit =>
      match coerceNum current with
      | some base => .vNum (base.add (deltaOf srcRow sc lit))
      | none => current
  | .decrement sc lit =>
      match coerceNum current with
      | some base => .vNum (base.sub (deltaOf srcRow sc lit))
      | none => current
  | .copyFrom sc =>
      match srcRow with
      | some row => row.getD sc
      | none => .vNull
  | .clear => .vNull
  | .flag lit =>
      match lit with
      | some v => v
      | none => .vStr "FLAGGED"

/-- Modelled from the spec (section 4.5): change-detection equality — two
values are equal iff both are null, or neither is null and they compare
equal by native equality. -/
def valuesEqual (a b : Val) : Bool :=
  (a.isNa && b.isNa) || (!a.isNa && !b.isNa && pyEq a b)

/-- Set one cell of a table positionally. -/
def dfSetCell (df : DataFrame) (i : Nat) (c : String) (v : Val) : DataFrame :=
  match df.cols.indexOf? c with
  | some j =>
      match df.rows.get? i with
      | some r => ⟨df.cols, df.rows.set i (r.set j v)⟩
      | none => df
  | none => df

/-- Modelled from the spec (sections 4.4-4.5): apply one action to one target
cell, emitting a `CellChange` only when the old and new values differ under
the change-detection equality rule. -/
def applyAction (act : RuleAction) (target : DataFrame) (rowIdx : Nat) (col : String)
    (srcRow : Option Row) (keyValue stepId stepName : String) :
    DataFrame × List CellChange :=
  let old := target.cellAt rowIdx col
  let newV := actionNewValue act old srcRow
  if valuesEqual old newV then (target, [])
  else
    (dfSetCell target rowIdx col newV,
      [⟨rowIdx, col, keyValue, (if old.isNa then none else some old),
        (if newV.isNa then none else some newV), .modified, some stepId, some stepName⟩])

/-! ## Derived key-cleaning vocabulary used by theorem statements -/

/-- Plain first-seen-order deduplication of strings. -/
def dedupStrAux : List String → List String → List String
  | _, [] => []
  | seen, k :: rest =>
      if k ∈ seen then dedupStrAux seen rest
      else k :: dedupStrAux (k :: seen) rest

def dedupStr (l : List String) : List String := dedupStrAux [] l

/-- The cleaned keys of one key column, in row order, deduplicated: every
cell is cleaned by `cleanKeyValue` (drop NA, stringify, strip, drop empty)
and first occurrences are kept. -/
def cleanedKeys (df : DataFrame) (kc : String) : List String :=
  dedupStr ((df.colValues kc).filterMap cleanKeyValue)

/-! # Theorems -/

theorem mem_dedupNonemptyAux (k : String) :
    ∀ (l seen : List String),
      k ∈ dedupNonemptyAux seen l ↔ k ∈ l ∧ k ≠ "" ∧ k ∉ seen := by
  intro l
  induction l with
  | nil => intro seen; simp [dedupNonemptyAux]
  | cons a rest ih =>
      intro seen
      by_cases ha : a ≠ "" ∧ a ∉ seen
      · simp only [dedupNonemptyAux, if_pos ha, List.mem_cons, ih]
        constructor
        · rintro (rfl | ⟨h1, h2, h3⟩)
          · exact ⟨Or.inl rfl, ha.1, ha.2⟩
          · exact ⟨Or.inr h1, h2, fun hk => h3 (Or.inr hk)⟩
        · rintro ⟨rfl | h1, h2, h3⟩
          · exact Or.inl rfl
          · by_cases hak : k = a
            · exact Or.inl hak
            · refine Or.inr ⟨h1, h2, fun hk => ?_⟩
              rcases hk with h | h
              · exact hak h
              · exact h3 h
      · simp only [dedupNonemptyAux, if_neg ha, ih, List.mem_cons]
        constructor
        · rintro ⟨h1, h2, h3⟩
          exact ⟨Or.inr h1, h2, h3⟩
        · rintro ⟨rfl | h1, h2, h3⟩
          · exact absurd ⟨h2, h3⟩ ha
          · exact ⟨h1, h2, h3⟩

theorem mem_dedupNonempty (k : String) (l : List String) :
    k ∈ dedupNonempty l ↔ k ∈ l ∧ k ≠ "" := by
  simp [dedupNonempty, mem_dedupNonemptyAux]

theorem mem_dedupStrAux (k : String) :
    ∀ (l seen : List String),
      k ∈ dedupStrAux seen l ↔ k ∈ l ∧ k ∉ seen := by
  intro l
  induction l with
  | nil => intro seen; simp [dedupStrAux]
  | cons a rest ih =>
      intro seen
      by_cases ha : a ∈ seen
      · simp only [dedupStrAux, if_pos ha, ih, List.mem_cons]
        constructor
        · rintro ⟨h1, h2⟩; exact ⟨Or.inr h1, h2⟩
        · rintro ⟨rfl | h1, h2⟩
          · exact absurd ha h2
          · exact ⟨h1, h2⟩
      · simp only [dedupStrAux, if_neg ha, List.mem_cons, ih]
        constructor
        · rintro (rfl | ⟨h1, h2⟩)
          · exact ⟨Or.inl rfl, ha⟩
          · exact ⟨Or.inr h1, fun hk => h2 (Or.inr hk)⟩
        · rintro ⟨rfl | h1, h2⟩
          · exact Or.inl rfl
          · by_cases hak : k = a
            · exact Or.inl hak
            · refine Or.inr ⟨h1, fun hk => ?_⟩
              rcases hk with h | h
              · exact hak h
              · exact h2 h

theorem mem_dedupStr (k : String) (l : List String) :
    k ∈ dedupStr l ↔ k ∈ l := by
  simp [dedupStr, mem_dedupStrAux]

theorem mem_interFold (k : String) :
    ∀ (rest : List (List String)) (s : List String),
      k ∈ interFold s rest ↔ k ∈ s ∧ ∀ t ∈ rest, k ∈ t := by
  intro rest
  induction rest with
  | nil => intro s; simp [interFold]
  | cons t rest ih =>
      intro s
      have : interFold s (t :: rest) = interFold (s.filter (fun x => x ∈ t)) rest := rfl
      rw [this, ih]
      simp only [List.mem_filter, decide_eq_true_eq, List.mem_cons]
      constructor
      · rintro ⟨⟨h1, h2⟩, h3⟩
        exact ⟨h1, fun u hu => by rcases hu with rfl | hu; exact h2; exact h3 u hu⟩
      · rintro ⟨h1, h2⟩
        exact ⟨⟨h1, h2 t (Or.inl rfl)⟩, fun u hu => h2 u (Or.inr hu)⟩

theorem mem_unionFoldAux (k : String) :
    ∀ (sets : List (List String)) (acc : List String),
      k ∈ sets.foldl (fun acc t => acc ++ t.filter (fun x => x ∉ acc)) acc ↔
        k ∈ acc ∨ ∃ t ∈ sets, k ∈ t := by
  intro sets
  induction sets with
  | nil => intro acc; simp
  | cons t rest ih =>
      intro acc
      have : (t :: rest).foldl (fun acc t => acc ++ t.filter (fun x => x ∉ acc)) acc =
          rest.foldl (fun acc t => acc ++ t.filter (fun x => x ∉ acc))
            (acc ++ t.filter (fun x => x ∉ acc)) := rfl
      rw [this, ih]
      simp only [List.mem_append, List.mem_filter, decide_eq_true_eq, List.mem_cons]
      constructor
      · rintro ((h | ⟨h1, _⟩) | ⟨u, hu, hk⟩)
        · exact Or.inl h
        · exact Or.inr ⟨t, Or.inl rfl, h1⟩
        · exact Or.inr ⟨u, Or.inr hu, hk⟩
      · rintro (h | ⟨u, rfl | hu, hk⟩)
        · exact Or.inl (Or.inl h)
        · by_cases hacc : k ∈ acc
          · exact Or.inl (Or.inl hacc)
          · exact Or.inl (Or.inr ⟨hk, hacc⟩)
        · exact Or.inr ⟨u, hu, hk⟩

theorem mem_unionFold (k : String) (sets : List (List String)) :
    k ∈ unionFold sets ↔ ∃ t ∈ sets, k ∈ t := by
  have h := mem_unionFoldAux k sets []
  simp only [List.not_mem_nil, false_or] at h
  exact h

theorem dedupNonemptyAux_eq_dedupStrAux :
    ∀ (l seen : List String),
      dedupNonemptyAux seen l = dedupStrAux seen (l.filter (fun k => k ≠ "")) := by
  intro l
  induction l with
  | nil => intro seen; simp [dedupNonemptyAux, dedupStrAux]
  | cons a rest ih =>
      intro seen
      by_cases ha : a = ""
      · subst ha
        simp only [List.filter_cons]
        have : ¬(("" : String) ≠ "" ∧ ("" : String) ∉ seen) := by simp
        simp [dedupNonemptyAux, if_neg this, ih]
      · by_cases hseen : a ∈ seen
        · have h1 : ¬(a ≠ "" ∧ a ∉ seen) := by simp [hseen]
          simp [dedupNonemptyAux, if_neg h1, List.filter_cons, ha, dedupStrAux, hseen, ih]
        · have h1 : a ≠ "" ∧ a ∉ seen := ⟨ha, hseen⟩
          simp [dedupNonemptyAux, if_pos h1, List.filter_cons, ha, dedupStrAux, hseen, ih]

theorem cleanedStrings_filter_eq_filterMap (l : List Val) :
    ((l.filter (fun v => !v.isNa)).map (fun v => pyStrip (pyStr v))).filter
        (fun k => k ≠ "") =
      l.filterMap cleanKeyValue := by
  induction l with
  | nil => simp
  | cons v rest ih =>
      by_cases hna : v.isNa
      · simp only [List.filter_cons, hna, List.filterMap_cons, cleanKeyValue, if_true,
          Bool.not_true, cond_false]
        simpa using ih
      · by_cases hempty : pyStrip (pyStr v) = ""
        · simp only [List.filter_cons, List.filterMap_cons, cleanKeyValue, hna, hempty,
            Bool.not_false, cond_true, List.map_cons, if_false, Bool.false_eq_true]
          simpa [hempty] using ih
        · simp only [List.filter_cons, List.filterMap_cons, cleanKeyValue, hna, hempty,
            Bool.not_false, cond_true, List.map_cons, if_false, Bool.false_eq_true]
          simpa [hempty] using ih

theorem dedupNonempty_cleanedStrings (df : DataFrame) (kc : String) :
    dedupNonempty (cleanedStrings df kc) = cleanedKeys df kc := by
  rw [dedupNonempty, cleanedStrings, dedupNonemptyAux_eq_dedupStrAux,
    cleanedStrings_filter_eq_filterMap]
  rfl

theorem mem_cleanedKeys (k : String) (df : DataFrame) (kc : String) :
    k ∈ cleanedKeys df kc ↔ ∃ v ∈ df.colValues kc, cleanKeyValue v = some k := by
  rw [cleanedKeys, mem_dedupStr, List.mem_filterMap]

theorem mem_cleanedKeySet (k : String) (df : DataFrame) (kc : String) :
    k ∈ cleanedKeySet df kc ↔ ∃ v ∈ df.colValues kc, cleanKeyValue v = some k := by
  rw [cleanedKeySet, dedupNonempty_cleanedStrings, mem_cleanedKeys]

theorem mem_mappedKeySets (t : List String) (kms : List (String × String))
    (dfs : List (String × DataFrame)) :
    t ∈ mappedKeySets kms dfs ↔
      ∃ p ∈ dfs, ∃ kc, mappingOf kms p.1 = some kc ∧ kc ∈ p.2.cols ∧
        t = cleanedKeySet p.2 kc := by
  unfold mappedKeySets
  rw [List.mem_filterMap]
  constructor
  · rintro ⟨p, hp, hf⟩
    cases hm : mappingOf kms p.1 with
    | none => rw [hm] at hf; cases hf
    | some kc =>
        rw [hm] at hf
        dsimp only at hf
        by_cases hcols : kc ∈ p.2.cols
        · rw [if_pos hcols] at hf
          exact ⟨p, hp, kc, hm, hcols, (Option.some.inj hf).symm⟩
        · rw [if_neg hcols] at hf; cases hf
  · rintro ⟨p, hp, kc, hm, hcols, rfl⟩
    refine ⟨p, hp, ?_⟩
    rw [hm]
    dsimp only
    rw [if_pos hcols]

theorem getIntersectionKeys_mem (kms : List (String × String))
    (dfs : List (String × DataFrame)) (l : List String)
    (hl : (getIntersectionKeys kms dfs).1 = some l) :
    ∀ k, k ∈ l ↔ ∀ t ∈ mappedKeySets kms dfs, k ∈ t := by
  unfold getIntersectionKeys at hl
  cases hsets : mappedKeySets kms dfs with
  | nil => rw [hsets] at hl; cases hl
  | cons s rest =>
      rw [hsets] at hl
      have hl' : interFold s rest = l := Option.some.inj hl
      intro k
      rw [← hl', mem_interFold]
      constructor
      · rintro ⟨h1, h2⟩ t ht
        rcases List.mem_cons.mp ht with rfl | ht
        · exact h1
        · exact h2 t ht
      · intro h
        exact ⟨h s (List.mem_cons_self s rest), fun t ht => h t (List.mem_cons_of_mem s ht)⟩

theorem getUnionKeys_mem (kms : List (String × String))
    (dfs : List (String × DataFrame)) (l : List String)
    (hl : (getUnionKeys kms dfs).1 = some l) :
    ∀ k, k ∈ l ↔ ∃ t ∈ mappedKeySets kms dfs, k ∈ t := by
  unfold getUnionKeys at hl
  by_cases hempty : unionFold (mappedKeySets kms dfs) = []
  · rw [if_pos hempty] at hl; cases hl
  · rw [if_neg hempty] at hl
    have hl' : unionFold (mappedKeySets kms dfs) = l := Option.some.inj hl
    intro k
    rw [← hl', mem_unionFold]

theorem gkv_inner (p : String) (kms : List (String × String))
    (dfs : List (String × DataFrame)) (files : List FileCfg) :
    getKeyValuesForJoinType "inner" p kms dfs files = getIntersectionKeys kms dfs := by
  simp [getKeyValuesForJoinType]

theorem gkv_left (p : String) (kms : List (String × String))
    (dfs : List (String × DataFrame)) (files : List FileCfg) :
    getKeyValuesForJoinType "left" p kms dfs files = getKeysFromFile p kms dfs := by
  simp [getKeyValuesForJoinType]

theorem gkv_full (p : String) (kms : List (String × String))
    (dfs : List (String × DataFrame)) (files : List FileCfg) :
    getKeyValuesForJoinType "full" p kms dfs files = getUnionKeys kms dfs := by
  simp [getKeyValuesForJoinType]

theorem gkv_right (p : String) (kms : List (String × String))
    (dfs : List (String × DataFrame)) (files : List FileCfg) (lastF : FileCfg)
    (hlast : files.getLast? = some lastF) (hid : lastF.id ≠ "") :
    getKeyValuesForJoinType "right" p kms dfs files = getKeysFromFile lastF.id kms dfs := by
  simp [getKeyValuesForJoinType, hlast, strTruthy, hid]

theorem gkv_default (p jt : String) (kms : List (String × String))
    (dfs : List (String × DataFrame)) (files : List FileCfg)
    (hjt : jt ∉ (["inner", "left", "right", "full"] : List String)) :
    getKeyValuesForJoinType jt p kms dfs files = getKeysFromFile p kms dfs := by
  simp only [List.mem_cons, List.not_mem_nil, or_false, not_or] at hjt
  obtain ⟨h1, h2, h3, h4⟩ := hjt
  simp [getKeyValuesForJoinType, h1, h2, h3, h4]

theorem getKeysFromFile_eq (fid : String) (kms : List (String × String))
    (dfs : List (String × DataFrame)) (df : DataFrame) (kc : String)
    (h1 : List.lookup fid dfs = some df)
    (h2 : mappingOf kms fid = some kc)
    (h3 : kc ∈ df.cols) :
    getKeysFromFile fid kms dfs = (some (cleanedKeys df kc), []) := by
  simp [getKeysFromFile, h1, h2, h3, dedupNonempty_cleanedStrings]

/-- C1: For every set of input tables with a configured key mapping (every
mapped file's key column existing in that file), the key universe produced by
the join resolver satisfies the four join semantics: `inner` yields the
intersection of cleaned-key-sets across the files that have a key mapping,
`full` yields their union, `left` yields the cleaned keys of the primary
file in that file's row order deduplicated, `right` yields the cleaned keys
of the last file in the configured file list in that file's row order
deduplicated, and any unrecognized join type behaves exactly as `left`. -/
theorem joinResolver_four_join_semantics
    (kms : List (String × String)) (dfs : List (String × DataFrame))
    (filesCfg : List FileCfg) (primary jt : String)
    (dfP dfL : DataFrame) (kcP kcL : String) (lastF : FileCfg)
    (hwf : ∀ p ∈ dfs, ∀ kc ∈ (mappingOf kms p.1).toList, kc ∈ p.2.cols)
    (hP1 : List.lookup primary dfs = some dfP)
    (hP2 : mappingOf kms primary = some kcP)
    (hP3 : kcP ∈ dfP.cols)
    (hL0 : filesCfg.getLast? = some lastF)
    (hL1 : List.lookup lastF.id dfs = some dfL)
    (hL2 : mappingOf kms lastF.id = some kcL)
    (hL3 : kcL ∈ dfL.cols)
    (hL4 : lastF.id ≠ "")
    (hjt : jt ∉ (["inner", "left", "right", "full"] : List String)) :
    (∀ l, (getKeyValuesForJoinType "inner" primary kms dfs filesCfg).1 = some l →
        ∀ k, k ∈ l ↔ ∀ p ∈ dfs, ∀ kc, mappingOf kms p.1 = some kc →
          k ∈ cleanedKeySet p.2 kc) ∧
    (∀ l, (getKeyValuesForJoinType "full" primary kms dfs filesCfg).1 = some l →
        ∀ k, k ∈ l ↔ ∃ p ∈ dfs, ∃ kc, mappingOf kms p.1 = some kc ∧
          k ∈ cleanedKeySet p.2 kc) ∧
    getKeyValuesForJoinType "left" primary kms dfs filesCfg =
      (some (cleanedKeys dfP kcP), []) ∧
    getKeyValuesForJoinType "right" primary kms dfs filesCfg =
      (some (cleanedKeys dfL kcL), []) ∧
    getKeyValuesForJoinType jt primary kms dfs filesCfg =
      getKeyValuesForJoinType "left" primary kms dfs filesCfg := by
  have hwf' : ∀ p ∈ dfs, ∀ kc, mappingOf kms p.1 = some kc → kc ∈ p.2.cols := by
    intro p hp kc hkc
    refine hwf p hp kc ?_
    rw [hkc]
    exact List.mem_singleton.mpr rfl
  refine ⟨?_, ?_, ?_, ?_, ?_⟩
  · intro l hl k
    rw [gkv_inner] at hl
    rw [getIntersectionKeys_mem kms dfs l hl k]
    constructor
    · intro h p hp kc hm
      exact h (cleanedKeySet p.2 kc)
        ((mem_mappedKeySets _ _ _).mpr ⟨p, hp, kc, hm, hwf' p hp kc hm, rfl⟩)
    · intro h t ht
      obtain ⟨p, hp, kc, hm, _, rfl⟩ := (mem_mappedKeySets _ _ _).mp ht
      exact h p hp kc hm
  · intro l hl k
    rw [gkv_full] at hl
    rw [getUnionKeys_mem kms dfs l hl k]
    constructor
    · rintro ⟨t, ht, hk⟩
      obtain ⟨p, hp, kc, hm, _, rfl⟩ := (mem_mappedKeySets _ _ _).mp ht
      exact ⟨p, hp, kc, hm, hk⟩
    · rintro ⟨p, hp, kc, hm, hk⟩
      exact ⟨cleanedKeySet p.2 kc,
        (mem_mappedKeySets _ _ _).mpr ⟨p, hp, kc, hm, hwf' p hp kc hm, rfl⟩, hk⟩
  · rw [gkv_left]
    exact getKeysFromFile_eq primary kms dfs dfP kcP hP1 hP2 hP3
  · rw [gkv_right primary kms dfs filesCfg lastF hL0 hL4]
    exact getKeysFromFile_eq lastF.id kms dfs dfL kcL hL1 hL2 hL3
  · rw [gkv_default primary jt kms dfs filesCfg hjt, gkv_left]

theorem joinResolver_four_join_semantics_witness :
    getKeyValuesForJoinType "bogus" "f1"
        [("f1", "k"), ("f2", "k")]
        [("f1", DataFrame.mk ["k"] [[Val.vStr "k1"], [Val.vStr "k2"], [Val.vStr "k3"]]),
         ("f2", DataFrame.mk ["k"] [[Val.vStr "k2"], [Val.vStr "k3"], [Val.vStr "k4"]])]
        [FileCfg.mk "f1" "F1", FileCfg.mk "f2" "F2"] =
      getKeyValuesForJoinType "left" "f1"
        [("f1", "k"), ("f2", "k")]
        [("f1", DataFrame.mk ["k"] [[Val.vStr "k1"], [Val.vStr "k2"], [Val.vStr "k3"]]),
         ("f2", DataFrame.mk ["k"] [[Val.vStr "k2"], [Val.vStr "k3"], [Val.vStr "k4"]])]
        [FileCfg.mk "f1" "F1", FileCfg.mk "f2" "F2"] ∧
    (getKeyValuesForJoinType "left" "f1"
        [("f1", "k"), ("f2", "k")]
        [("f1", DataFrame.mk ["k"] [[Val.vStr "k1"], [Val.vStr "k2"], [Val.vStr "k3"]]),
         ("f2", DataFrame.mk ["k"] [[Val.vStr "k2"], [Val.vStr "k3"], [Val.vStr "k4"]])]
        [FileCfg.mk "f1" "F1", FileCfg.mk "f2" "F2"]).1 =
      some ["k1", "k2", "k3"] := by
  have h := joinResolver_four_join_semantics
    [("f1", "k"), ("f2", "k")]
    [("f1", DataFrame.mk ["k"] [[Val.vStr "k1"], [Val.vStr "k2"], [Val.vStr "k3"]]),
     ("f2", DataFrame.mk ["k"] [[Val.vStr "k2"], [Val.vStr "k3"], [Val.vStr "k4"]])]
    [FileCfg.mk "f1" "F1", FileCfg.mk "f2" "F2"] "f1" "bogus"
    (DataFrame.mk ["k"] [[Val.vStr "k1"], [Val.vStr "k2"], [Val.vStr "k3"]])
    (DataFrame.mk ["k"] [[Val.vStr "k2"], [Val.vStr "k3"], [Val.vStr "k4"]])
    "k" "k" (FileCfg.mk "f2" "F2")
    (by decide) (by decide) (by decide) (by decide) (by decide) (by decide)
    (by decide) (by decide) (by decide) (by decide)
  exact ⟨h.2.2.2.2, by rw [h.2.2.1]; decide⟩

theorem divFold_zero :
    ∀ (vs : List Q) (acc : Q), (∃ w ∈ vs, w.beq (Q.ofNat 0) = true) →
      divFold acc vs = (none, ["Division by zero encountered"]) := by
  intro vs
  induction vs with
  | nil => rintro acc ⟨u, hu, _⟩; cases hu
  | cons w rest ih =>
      intro acc h
      by_cases hw : w.beq (Q.ofNat 0) = true
      · simp [divFold, hw]
      · obtain ⟨u, hu, hz⟩ := h
        rcases List.mem_cons.mp hu with rfl | hu
        · exact absurd hz hw
        · simp only [divFold, hw, if_false, Bool.false_eq_true]
          exact ih _ ⟨u, hu, hz⟩

/-- C2 counterexample: the claim as stated is false.  The second operand (an
operand after the first) is a column reference resolving to zero, yet the
divide evaluates to `0/5` with no warning, because the preceding literal
operand carries no value and is skipped, shifting the zero into dividend
position. -/
theorem divide_operand_zero_counterexample :
    resolveOperand [("f", some (Row.mk ["c"] [Val.vNum ⟨0, 1⟩]))]
        (Operand.column (some "f") (some "c")) = [Q.ofNat 0] ∧
    computeMath "divide"
        [Operand.literal none, Operand.column (some "f") (some "c"),
          Operand.literal (some (Val.vNum ⟨5, 1⟩))]
        [("f", some (Row.mk ["c"] [Val.vNum ⟨0, 1⟩]))] =
      (some ⟨0, 5⟩, []) := by decide

/-- C2 (amended): for a divide Math source, if any element after the first of
the resolved operand-value list is zero, the cell evaluates to null and
exactly one warning is recorded for that cell; evaluation is total, so the
run never fails.  (Operands whose literal value is missing contribute no
value and so do not count as divisors.) -/
theorem divide_by_zero_yields_null_and_one_warning
    (operands : List Operand) (fileRows : FileRows) (v : Q) (vs : List Q)
    (hne : operands ≠ [])
    (hvals : operands.flatMap (resolveOperand fileRows) = v :: vs)
    (hzero : ∃ w ∈ vs, w.beq (Q.ofNat 0) = true) :
    computeMath "divide" operands fileRows =
      (none, ["Division by zero encountered"]) := by
  unfold computeMath
  rw [if_neg hne, hvals]
  simp only [String.reduceEq, if_false, Bool.false_eq_true, if_true]
  exact divFold_zero vs v hzero

theorem divide_by_zero_yields_null_and_one_warning_witness :
    computeMath "divide"
        [Operand.literal (some (Val.vNum ⟨10, 1⟩)),
          Operand.literal (some (Val.vNum ⟨0, 1⟩))] [] =
      (none, ["Division by zero encountered"]) :=
  divide_by_zero_yields_null_and_one_warning
    [Operand.literal (some (Val.vNum ⟨10, 1⟩)),
      Operand.literal (some (Val.vNum ⟨0, 1⟩))]
    [] ⟨10, 1⟩ [⟨0, 1⟩] (by decide) (by decide) (by decide)

theorem pyEq_refl (v : Val) : pyEq v v = true := by
  cases v <;> simp [pyEq, Val.numQ, Q.beq]

theorem mem_dedupByPyEqAux_subset (w : Val) :
    ∀ (l seen : List Val), w ∈ dedupByPyEqAux seen l → w ∈ l := by
  intro l
  induction l with
  | nil => intro seen h; cases h
  | cons a rest ih =>
      intro seen h
      unfold dedupByPyEqAux at h
      by_cases ha : seen.any (fun u => pyEq u a) = true
      · rw [if_pos ha] at h
        exact List.mem_cons_of_mem a (ih seen h)
      · rw [if_neg ha] at h
        rcases List.mem_cons.mp h with rfl | h
        · exact List.mem_cons_self _ _
        · exact List.mem_cons_of_mem a (ih (a :: seen) h)

theorem exists_pyEq_dedupByPyEqAux (v : Val) :
    ∀ (l seen : List Val), v ∈ l →
      (∃ u ∈ seen, pyEq u v = true) ∨
        ∃ w ∈ dedupByPyEqAux seen l, pyEq w v = true := by
  intro l
  induction l with
  | nil => intro seen h; cases h
  | cons a rest ih =>
      intro seen h
      unfold dedupByPyEqAux
      by_cases ha : seen.any (fun u => pyEq u a) = true
      · rw [if_pos ha]
        rcases List.mem_cons.mp h with rfl | h
        · obtain ⟨u, hu, hua⟩ := List.any_eq_true.mp ha
          exact Or.inl ⟨u, hu, hua⟩
        · exact ih seen h
      · rw [if_neg ha]
        rcases List.mem_cons.mp h with rfl | h
        · exact Or.inr ⟨v, List.mem_cons_self _ _, pyEq_refl v⟩
        · rcases ih (a :: seen) h with ⟨u, hu, huv⟩ | ⟨w, hw, hwv⟩
          · rcases List.mem_cons.mp hu with rfl | hu
            · exact Or.inr ⟨u, List.mem_cons_self _ _, huv⟩
            · exact Or.inl ⟨u, hu, huv⟩
          · exact Or.inr ⟨w, List.mem_cons_of_mem a hw, hwv⟩

/-- C3 counterexample: the claim as stated is false for the MergeEngine.  A
key column holding "  A1  ", "A1" and "" produces a merge key universe that
keeps all three raw values: the empty-string cell is admitted, and the
untrimmed and trimmed spellings remain distinct keys. -/
theorem merge_key_cleaning_counterexample :
    mergeKeyValues
        (DataFrame.mk ["k"] [[Val.vStr "  A1  "], [Val.vStr "A1"], [Val.vStr ""]]) "k" =
      [Val.vStr "  A1  ", Val.vStr "A1", Val.vStr ""] := by decide

/-- C3 (amended): the cleaning rule holds only in the WorkflowEngine, not
uniformly.  In the WorkflowEngine a raw cell value contributes a key iff it
is non-null and its stripped string form is non-empty (so "  A1  " and "A1"
denote the same key and null/empty cells are silently dropped); in the
MergeEngine the key universe is the raw non-null values of the base key
column deduplicated under native equality — no trimming and no empty-string
filtering. -/
theorem key_admission_workflow_vs_merge
    (fid kc : String) (kms : List (String × String))
    (dfs : List (String × DataFrame)) (df : DataFrame)
    (h1 : List.lookup fid dfs = some df)
    (h2 : mappingOf kms fid = some kc)
    (h3 : kc ∈ df.cols) :
    (∀ v k, cleanKeyValue v = some k ↔
        (v.isNa = false ∧ k = pyStrip (pyStr v) ∧ k ≠ "")) ∧
    (∀ k l, (getKeysFromFile fid kms dfs).1 = some l →
        (k ∈ l ↔ ∃ v ∈ df.colValues kc, cleanKeyValue v = some k)) ∧
    (∀ w ∈ mergeKeyValues df kc, w.isNa = false ∧ w ∈ df.colValues kc) ∧
    (∀ v ∈ df.colValues kc, v.isNa = false →
        ∃ w ∈ mergeKeyValues df kc, pyEq w v = true) := by
  refine ⟨?_, ?_, ?_, ?_⟩
  · intro v k
    unfold cleanKeyValue
    cases hna : v.isNa with
    | true => simp [hna]
    | false =>
        rw [if_neg (by simp)]
        dsimp only
        by_cases hempty : pyStrip (pyStr v) = ""
        · simp [hempty]
        · rw [if_neg hempty]
          simp only [Option.some.injEq]
          constructor
          · rintro rfl
            exact ⟨by trivial, rfl, hempty⟩
          · rintro ⟨_, rfl, _⟩
            rfl
  · intro k l hl
    rw [getKeysFromFile_eq fid kms dfs df kc h1 h2 h3] at hl
    have : cleanedKeys df kc = l := Option.some.inj hl
    rw [← this, mem_cleanedKeys]
  · intro w hw
    have hmem := mem_dedupByPyEqAux_subset w _ [] hw
    have := List.mem_filter.mp hmem
    exact ⟨by simp at this; exact this.2, this.1⟩
  · intro v hv hna
    have hvf : v ∈ (df.colValues kc).filter (fun x => !x.isNa) :=
      List.mem_filter.mpr ⟨hv, by simp [hna]⟩
    rcases exists_pyEq_dedupByPyEqAux v _ [] hvf with ⟨u, hu, _⟩ | h
    · cases hu
    · exact h

theorem key_admission_workflow_vs_merge_witness :
    ∃ w ∈ mergeKeyValues
        (DataFrame.mk ["k"]
          [[Val.vStr "  A1  "], [Val.vStr "A1"], [Val.vStr ""], [Val.vNull]]) "k",
      pyEq w (Val.vStr "") = true := by
  have h := key_admission_workflow_vs_merge "f1" "k" [("f1", "k")]
    [("f1", DataFrame.mk ["k"]
      [[Val.vStr "  A1  "], [Val.vStr "A1"], [Val.vStr ""], [Val.vNull]])]
    (DataFrame.mk ["k"] [[Val.vStr "  A1  "], [Val.vStr "A1"], [Val.vStr ""], [Val.vNull]])
    (by decide) (by decide) (by decide)
  exact h.2.2.2 (Val.vStr "") (by decide) (by decide)

/-- C4: for every Math column source and every row correspondence, a
column-ref operand whose file row is absent, whose column is missing from
the row (exact and trimmed lookup both failing), whose cell is null, or
whose cell is non-numeric text contributes exactly `0.0` to the operand
value list, and column-name lookup falls back to a whitespace-trimmed
comparison when exact match fails. -/
theorem math_operand_lenient_coercion
    (fileRows : FileRows) (fid col : String) (row : Row)
    (hfid : fid ≠ "") (hcol : col ≠ "") :
    (lookupRow fileRows fid = none →
      resolveOperand fileRows (Operand.column (some fid) (some col)) = [Q.ofNat 0]) ∧
    (lookupRow fileRows fid = some row → col ∉ row.index →
      findTrimmedValue row col row.index = none →
      resolveOperand fileRows (Operand.column (some fid) (some col)) = [Q.ofNat 0]) ∧
    (lookupRow fileRows fid = some row → col ∈ row.index → (row.getD col).isNa = true →
      resolveOperand fileRows (Operand.column (some fid) (some col)) = [Q.ofNat 0]) ∧
    (∀ s, lookupRow fileRows fid = some row → col ∈ row.index →
      row.getD col = Val.vStr s → parseFloat s = none →
      resolveOperand fileRows (Operand.column (some fid) (some col)) = [Q.ofNat 0]) ∧
    (∀ q, lookupRow fileRows fid = some row → col ∉ row.index →
      findTrimmedValue row col row.index = some q →
      resolveOperand fileRows (Operand.column (some fid) (some col)) = [q]) := by
  refine ⟨?_, ?_, ?_, ?_, ?_⟩
  · intro hrow
    simp [resolveOperand, strTruthy, hfid, hcol, hrow]
  · intro hrow hmem htrim
    simp [resolveOperand, strTruthy, hfid, hcol, hrow, hmem, htrim]
  · intro hrow hmem hna
    simp [resolveOperand, strTruthy, hfid, hcol, hrow, hmem, hna]
  · intro s hrow hmem hcell hparse
    simp [resolveOperand, strTruthy, hfid, hcol, hrow, hmem, hcell, hparse, pyFloat,
      Val.isNa]
  · intro q hrow hmem htrim
    simp [resolveOperand, strTruthy, hfid, hcol, hrow, hmem, htrim]

theorem math_operand_lenient_coercion_witness :
    resolveOperand [("f", some (Row.mk [" c "] [Val.vNum ⟨7, 1⟩]))]
        (Operand.column (some "f") (some "c")) = [(⟨7, 1⟩ : Q)] := by
  have h := math_operand_lenient_coercion
    [("f", some (Row.mk [" c "] [Val.vNum ⟨7, 1⟩]))] "f" "c"
    (Row.mk [" c "] [Val.vNum ⟨7, 1⟩]) (by decide) (by decide)
  exact h.2.2.2.2 ⟨7, 1⟩ (by decide) (by decide) (by decide)

/-- C5 counterexample: the claim as stated is false.  With no key mapping,
files of lengths 1 and 2 and one output column, the output has exactly one
row — the first configured file's length — not one row per offset up to the
maximum input length 2. -/
theorem positional_row_count_counterexample :
    (execute
        (Cfg.mk [FileCfg.mk "f1" "A", FileCfg.mk "f2" "B"] none none
          [OutputCol.mk "out" 0 (Source.direct (some "f2") (some "c"))])
        [("f1", DataFrame.mk ["x"] [[Val.vStr "r0"]]),
          ("f2", DataFrame.mk ["c"] [[Val.vStr "c0"], [Val.vStr "c1"]])]).1.rows.length = 1 ∧
    (([("f1", DataFrame.mk ["x"] [[Val.vStr "r0"]]),
        ("f2", DataFrame.mk ["c"] [[Val.vStr "c0"], [Val.vStr "c1"]])].map
          (fun p => p.2.rows.length)).foldl max 0) = 2 := by decide

/-- C5 (amended): with no key mapping configured, the engine uses positional
correspondence seeded by the first configured file: the key values are the
integer offsets `0 .. len(first file) - 1` themselves, output row `i` pairs
row `i` of every input file by offset (a file is absent past its own
length), and the output has one row per offset up to the first configured
file's length — not the maximum input length. -/
theorem positional_fallback_semantics
    (cfg : Cfg) (dfs : List (String × DataFrame)) (f0 : FileCfg) (df0 : DataFrame)
    (hkey : cfg.keyColumn = none)
    (hf0 : cfg.files.head? = some f0)
    (hf0id : f0.id ≠ "")
    (hdf0 : List.lookup f0.id dfs = some df0)
    (hcols : cfg.outputColumns ≠ []) :
    resolveKeyValues cfg dfs = (some ((List.range df0.rows.length).map KeyVal.pos), []) ∧
    (execute cfg dfs).1.rows.length = df0.rows.length ∧
    (∀ idx kv, buildFileRows cfg dfs idx kv = dfs.map (fun p => (p.1, p.2.rowAt? idx))) ∧
    (∀ (df : DataFrame) (idx : Nat), df.rowAt? idx = none ↔ df.rows.length ≤ idx) := by
  have hres : resolveKeyValues cfg dfs =
      (some ((List.range df0.rows.length).map KeyVal.pos), []) := by
    unfold resolveKeyValues
    rw [hkey, hf0]
    dsimp only
    rw [show strTruthy (Option.map (fun f => f.id) (some f0)) = some f0.id from by
      simp [strTruthy, hf0id]]
    dsimp only
    rw [hdf0]
  refine ⟨hres, ?_, ?_, ?_⟩
  · unfold execute
    rw [if_neg hcols, hres]
    simp
  · intro idx kv
    unfold buildFileRows
    rw [hkey]
  · intro df idx
    simp [DataFrame.rowAt?, List.get?_eq_none]

theorem positional_fallback_semantics_witness :
    resolveKeyValues
        (Cfg.mk [FileCfg.mk "f1" "A", FileCfg.mk "f2" "B"] none none
          [OutputCol.mk "out" 0 (Source.direct (some "f2") (some "c"))])
        [("f1", DataFrame.mk ["x"] [[Val.vStr "r0"]]),
          ("f2", DataFrame.mk ["c"] [[Val.vStr "c0"], [Val.vStr "c1"]])] =
      (some [KeyVal.pos 0], []) := by
  have h := positional_fallback_semantics
    (Cfg.mk [FileCfg.mk "f1" "A", FileCfg.mk "f2" "B"] none none
      [OutputCol.mk "out" 0 (Source.direct (some "f2") (some "c"))])
    [("f1", DataFrame.mk ["x"] [[Val.vStr "r0"]]),
      ("f2", DataFrame.mk ["c"] [[Val.vStr "c0"], [Val.vStr "c1"]])]
    (FileCfg.mk "f1" "A") (DataFrame.mk ["x"] [[Val.vStr "r0"]])
    rfl (by decide) (by decide) (by decide) (by decide)
  exact h.1.trans (by decide)

/-- C6: configuration errors yield an empty result plus a descriptive warning
string and never an exception (the embedding is total): no output columns
gives exactly the warning "No output columns defined" in both engines; an
empty key-mapping dict, a primary file absent from the supplied tables, and
zero configured files likewise yield the empty table plus one descriptive
warning. -/
theorem config_errors_empty_table_with_warning
    (cfg : Cfg) (mcfg : MergeCfg) (dfs : List (String × DataFrame)) :
    (cfg.outputColumns = [] →
      execute cfg dfs = (emptyDf, ["No output columns defined"])) ∧
    (mcfg.outputColumns = [] →
      mergeResolveKeys mcfg dfs = (none, ["No output columns defined"])) ∧
    (cfg.outputColumns ≠ [] → cfg.keyColumn = some [] →
      execute cfg dfs = (emptyDf, ["No key column mappings defined"])) ∧
    (∀ kms, cfg.outputColumns ≠ [] → cfg.keyColumn = some kms → kms ≠ [] →
      (∀ p, strTruthy (resolvedPrimary cfg) = some p → List.lookup p dfs = none) →
      execute cfg dfs = (emptyDf, ["Primary file not found in provided dataframes"])) ∧
    (cfg.outputColumns ≠ [] → cfg.keyColumn = none → cfg.files = [] →
      execute cfg dfs = (emptyDf, ["No files available to process"])) := by
  have hexec : ∀ w, cfg.outputColumns ≠ [] → resolveKeyValues cfg dfs = (none, w) →
      execute cfg dfs = (emptyDf, w) := by
    intro w hne hw
    unfold execute
    rw [if_neg hne, hw]
  refine ⟨?_, ?_, ?_, ?_, ?_⟩
  · intro h
    unfold execute
    rw [if_pos h]
  · intro h
    unfold mergeResolveKeys
    rw [if_pos h]
  · intro hne hkey
    refine hexec _ hne ?_
    unfold resolveKeyValues
    rw [hkey]
    simp
  · intro kms hne hkey hkms hprim
    refine hexec _ hne ?_
    unfold resolveKeyValues
    rw [hkey]
    dsimp only
    rw [if_neg hkms]
    cases hp : strTruthy (resolvedPrimary cfg) with
    | none => rfl
    | some p =>
        dsimp only
        rw [hprim p hp]
  · intro hne hkey hfiles
    refine hexec _ hne ?_
    unfold resolveKeyValues
    rw [hkey, hfiles]
    rfl

theorem config_errors_empty_table_with_warning_witness :
    execute (Cfg.mk [] none none []) [] =
      (emptyDf, ["No output columns defined"]) ∧
    mergeResolveKeys (MergeCfg.mk [] none []) [] =
      (none, ["No output columns defined"]) ∧
    execute (Cfg.mk [FileCfg.mk "f1" "A"] (some []) none
        [OutputCol.mk "o" 0 Source.other]) [] =
      (emptyDf, ["No key column mappings defined"]) ∧
    execute (Cfg.mk [FileCfg.mk "f1" "A"] (some [("f1", "k")]) none
        [OutputCol.mk "o" 0 Source.other]) [] =
      (emptyDf, ["Primary file not found in provided dataframes"]) ∧
    execute (Cfg.mk [] none none [OutputCol.mk "o" 0 Source.other]) [] =
      (emptyDf, ["No files available to process"]) := by
  have h1 := config_errors_empty_table_with_warning
    (Cfg.mk [] none none []) (MergeCfg.mk [] none []) []
  have h2 := config_errors_empty_table_with_warning
    (Cfg.mk [FileCfg.mk "f1" "A"] (some []) none [OutputCol.mk "o" 0 Source.other])
    (MergeCfg.mk [] none []) []
  have h3 := config_errors_empty_table_with_warning
    (Cfg.mk [FileCfg.mk "f1" "A"] (some [("f1", "k")]) none
      [OutputCol.mk "o" 0 Source.other])
    (MergeCfg.mk [] none []) []
  have h4 := config_errors_empty_table_with_warning
    (Cfg.mk [] none none [OutputCol.mk "o" 0 Source.other]) (MergeCfg.mk [] none []) []
  exact ⟨h1.1 rfl, h1.2.1 rfl, h2.2.2.1 (by decide) rfl,
    h3.2.2.2.1 [("f1", "k")] (by decide) rfl (by decide) (fun p _ => rfl),
    h4.2.2.2.2 (by decide) rfl rfl⟩

theorem insertNat_perm (n : Nat) : ∀ (l : List Nat), (insertNat n l).Perm (n :: l) := by
  intro l
  induction l with
  | nil => simp [insertNat]
  | cons m rest ih =>
      unfold insertNat
      by_cases h : n ≤ m
      · rw [if_pos h]
      · rw [if_neg h]
        exact (ih.cons m).trans (List.Perm.swap n m rest)

theorem sortNats_permAux :
    ∀ (l acc : List Nat),
      (l.foldl (fun acc n => insertNat n acc) acc).Perm (acc ++ l) := by
  intro l
  induction l with
  | nil => intro acc; simp
  | cons n rest ih =>
      intro acc
      have h1 : (List.foldl (fun acc n => insertNat n acc) (insertNat n acc) rest).Perm
          ((insertNat n acc) ++ rest) := ih (insertNat n acc)
      have h2 : ((insertNat n acc) ++ rest).Perm ((n :: acc) ++ rest) :=
        (insertNat_perm n acc).append_right rest
      have h3 : ((n :: acc) ++ rest).Perm (acc ++ n :: rest) :=
        List.perm_middle.symm
      exact (h1.trans h2).trans h3

theorem sortNats_perm (l : List Nat) : (sortNats l).Perm l :=
  sortNats_permAux l []

theorem mem_sortNats (x : Nat) (l : List Nat) : x ∈ sortNats l ↔ x ∈ l :=
  (sortNats_perm l).mem_iff

theorem insertNat_sorted (n : Nat) :
    ∀ (l : List Nat), List.Pairwise (· ≤ ·) l →
      List.Pairwise (· ≤ ·) (insertNat n l) := by
  intro l
  induction l with
  | nil => intro _; simp [insertNat]
  | cons m rest ih =>
      intro hs
      unfold insertNat
      by_cases h : n ≤ m
      · rw [if_pos h]
        refine List.Pairwise.cons ?_ hs
        intro b hb
        rcases List.mem_cons.mp hb with rfl | hb
        · exact h
        · exact h.trans (List.rel_of_pairwise_cons hs hb)
      · rw [if_neg h]
        have hm : ∀ b ∈ insertNat n rest, m ≤ b := by
          intro b hb
          rcases List.mem_cons.mp ((insertNat_perm n rest).mem_iff.mp hb) with rfl | hb'
          · exact Nat.le_of_lt (Nat.lt_of_not_le h)
          · exact List.rel_of_pairwise_cons hs hb'
        exact List.Pairwise.cons hm (ih (List.Pairwise.sublist (List.sublist_cons_self m rest) hs))

theorem sortNats_sortedAux :
    ∀ (l acc : List Nat), List.Pairwise (· ≤ ·) acc →
      List.Pairwise (· ≤ ·) (l.foldl (fun acc n => insertNat n acc) acc) := by
  intro l
  induction l with
  | nil => intro acc h; exact h
  | cons n rest ih =>
      intro acc h
      exact ih (insertNat n acc) (insertNat_sorted n acc h)

theorem sortNats_sorted (l : List Nat) : List.Pairwise (· ≤ ·) (sortNats l) :=
  sortNats_sortedAux l [] (by simp)

theorem mem_dedupNatsAux (x : Nat) :
    ∀ (l seen : List Nat), x ∈ dedupNatsAux seen l ↔ x ∈ l ∧ x ∉ seen := by
  intro l
  induction l with
  | nil => intro seen; simp [dedupNatsAux]
  | cons a rest ih =>
      intro seen
      by_cases ha : a ∈ seen
      · simp only [dedupNatsAux, if_pos ha, ih, List.mem_cons]
        constructor
        · rintro ⟨h1, h2⟩; exact ⟨Or.inr h1, h2⟩
        · rintro ⟨rfl | h1, h2⟩
          · exact absurd ha h2
          · exact ⟨h1, h2⟩
      · simp only [dedupNatsAux, if_neg ha, List.mem_cons, ih]
        constructor
        · rintro (rfl | ⟨h1, h2⟩)
          · exact ⟨Or.inl rfl, ha⟩
          · exact ⟨Or.inr h1, fun hk => h2 (Or.inr hk)⟩
        · rintro ⟨rfl | h1, h2⟩
          · exact Or.inl rfl
          · by_cases hax : x = a
            · exact Or.inl hax
            · refine Or.inr ⟨h1, fun hk => ?_⟩
              rcases hk with h | h
              · exact hax h
              · exact h2 h

theorem mem_dedupNats (x : Nat) (l : List Nat) : x ∈ dedupNats l ↔ x ∈ l := by
  simp [dedupNats, mem_dedupNatsAux]

theorem dedupNatsAux_nodup :
    ∀ (l seen : List Nat), (dedupNatsAux seen l).Nodup := by
  intro l
  induction l with
  | nil => intro seen; simp [dedupNatsAux]
  | cons a rest ih =>
      intro seen
      by_cases ha : a ∈ seen
      · rw [dedupNatsAux, if_pos ha]
        exact ih seen
      · rw [dedupNatsAux, if_neg ha]
        refine List.Nodup.cons ?_ (ih (a :: seen))
        intro hmem
        have := (mem_dedupNatsAux a rest (a :: seen)).mp hmem
        exact this.2 (List.mem_cons_self a seen)

theorem dedupNats_nodup (l : List Nat) : (dedupNats l).Nodup :=
  dedupNatsAux_nodup l []

theorem dedupNats_toFinset (l : List Nat) : (dedupNats l).toFinset = l.toFinset := by
  ext x
  simp [mem_dedupNats]

theorem dedupNats_length (l : List Nat) : (dedupNats l).length = l.toFinset.card := by
  rw [← dedupNats_toFinset, List.toFinset_card_of_nodup (dedupNats_nodup l)]

/-- C7: the diff generator groups changes by row index in ascending order;
`rowsAffected` is the number of distinct changed rows, `cellsModified` the
total change count, `totalRows` the modified table's row count, `warnings`
the number of generated warnings and `errors` 0; every change whose new
value is numeric and negative yields a `negative_value` warning naming its
row and column, and its row group is flagged `hasWarning` with the last
offending column's message winning. -/
theorem diffGenerator_grouping_and_summary
    (original modified : DataFrame) (changes : List CellChange) (kc : Option String) :
    (generate original modified changes kc).summary.rowsAffected =
        (changes.map (fun c => c.row)).toFinset.card ∧
    (generate original modified changes kc).summary.cellsModified = changes.length ∧
    (generate original modified changes kc).summary.totalRows = modified.rows.length ∧
    (generate original modified changes kc).summary.warnings =
        (generate original modified changes kc).warnings.length ∧
    (generate original modified changes kc).summary.errors = 0 ∧
    List.Pairwise (· < ·)
        ((generate original modified changes kc).changes.map (fun rc => rc.rowIndex)) ∧
    (∀ rc ∈ (generate original modified changes kc).changes,
        rc.cells = changes.filter (fun c => c.row == rc.rowIndex) ∧
        rc.hasWarning = rc.cells.any isNegChange ∧
        rc.warningMessage =
          ((rc.cells.filter isNegChange).getLast?).map (fun c => negWarningMsg c.column)) ∧
    (∀ c ∈ changes, isNegChange c = true →
        (DWarning.mk "negative_value" (negWarningMsg c.column) (some c.row)
            (some c.column)) ∈ (generate original modified changes kc).warnings ∧
        ∃ rc ∈ (generate original modified changes kc).changes,
          rc.rowIndex = c.row ∧ rc.hasWarning = true) := by
  refine ⟨?_, rfl, rfl, rfl, rfl, ?_, ?_, ?_⟩
  · show (sortNats (dedupNats (changes.map (fun c => c.row)))).length = _
    rw [(sortNats_perm _).length_eq, dedupNats_length]
  · show List.Pairwise (· < ·)
      (((sortNats (dedupNats (changes.map (fun c => c.row)))).map
        (mkRowChange changes)).map (fun rc => rc.rowIndex))
    rw [List.map_map]
    have hmap : ((sortNats (dedupNats (changes.map (fun c => c.row)))).map
        ((fun rc => rc.rowIndex) ∘ mkRowChange changes)) =
        sortNats (dedupNats (changes.map (fun c => c.row))) := by
      rw [show ((fun rc => rc.rowIndex) ∘ mkRowChange changes) = id from rfl, List.map_id]
    rw [hmap]
    have hle := sortNats_sorted (dedupNats (changes.map (fun c => c.row)))
    have hne : (sortNats (dedupNats (changes.map (fun c => c.row)))).Nodup :=
      ((sortNats_perm _).nodup_iff).mpr (dedupNats_nodup _)
    exact (hle.and hne).imp (fun h => Nat.lt_of_le_of_ne h.1 h.2)
  · intro rc hrc
    obtain ⟨r, _, rfl⟩ := List.mem_map.mp hrc
    exact ⟨rfl, rfl, rfl⟩
  · intro c hc hneg
    have hrow : c.row ∈ sortNats (dedupNats (changes.map (fun x => x.row))) := by
      rw [mem_sortNats, mem_dedupNats]
      exact List.mem_map.mpr ⟨c, hc, rfl⟩
    have hgroup : c ∈ changes.filter (fun x => x.row == c.row) :=
      List.mem_filter.mpr ⟨hc, by simp⟩
    constructor
    · show _ ∈ (sortNats (dedupNats (changes.map (fun x => x.row)))).flatMap
        (fun r => rowGroupWarnings r (changes.filter (fun x => x.row == r)))
      refine List.mem_flatMap.mpr ⟨c.row, hrow, ?_⟩
      unfold rowGroupWarnings
      exact List.mem_map.mpr ⟨c, List.mem_filter.mpr ⟨hgroup, hneg⟩, rfl⟩
    · refine ⟨mkRowChange changes c.row, List.mem_map.mpr ⟨c.row, hrow, rfl⟩, rfl, ?_⟩
      show (changes.filter (fun x => x.row == c.row)).any isNegChange = true
      exact List.any_eq_true.mpr ⟨c, hgroup, hneg⟩

theorem diffGenerator_grouping_and_summary_witness :
    (DWarning.mk "negative_value" (negWarningMsg "qty") (some 1) (some "qty")) ∈
      (generate emptyDf (DataFrame.mk ["qty"] [[Val.vNum ⟨3, 1⟩], [Val.vNum ⟨5, 1⟩]])
        [CellChange.mk 1 "qty" "K" (some (Val.vNum ⟨5, 1⟩)) (some (Val.vNum ⟨-2, 1⟩))
          ChangeType.modified none none]
        none).warnings :=
  (diffGenerator_grouping_and_summary emptyDf
      (DataFrame.mk ["qty"] [[Val.vNum ⟨3, 1⟩], [Val.vNum ⟨5, 1⟩]])
      [CellChange.mk 1 "qty" "K" (some (Val.vNum ⟨5, 1⟩)) (some (Val.vNum ⟨-2, 1⟩))
        ChangeType.modified none none]
      none).2.2.2.2.2.2.2
    (CellChange.mk 1 "qty" "K" (some (Val.vNum ⟨5, 1⟩)) (some (Val.vNum ⟨-2, 1⟩))
      ChangeType.modified none none)
    (by decide) (by decide) |>.1

theorem compareCell_self (idx : Nat) (col kv : String) (v : Val) :
    compareCell idx col kv v v = [] := by
  unfold compareCell
  by_cases h : v.isNa = true
  · rw [if_pos ⟨h, h⟩]
  · rw [if_neg (fun hc => h hc.1)]
    rw [if_neg ?_]
    rintro (hne | hpe)
    · exact hne rfl
    · exact hpe (pyEq_refl v)

/-- C8: diffing a table against itself yields zero changes; and per cell,
null-vs-null compares equal, native-equal non-null values produce no change,
and any other inequality (including exactly one side null) produces one
MODIFIED change whose old/new values preserve null as null. -/
theorem compare_dataframes_self_and_cell_semantics
    (T : DataFrame) (kc : String) (idx : Nat) (col kv : String) (oldV newV : Val) :
    compare_dataframes T T kc = [] ∧
    (oldV.isNa = true → newV.isNa = true →
      compareCell idx col kv oldV newV = []) ∧
    (oldV.isNa = false → newV.isNa = false → pyEq oldV newV = true →
      compareCell idx col kv oldV newV = []) ∧
    (oldV.isNa ≠ newV.isNa ∨
        (oldV.isNa = false ∧ newV.isNa = false ∧ pyEq oldV newV = false) →
      compareCell idx col kv oldV newV =
        [CellChange.mk idx col kv (if oldV.isNa then none else some oldV)
          (if newV.isNa then none else some newV) ChangeType.modified none none]) := by
  refine ⟨?_, ?_, ?_, ?_⟩
  · unfold compare_dataframes
    rw [List.flatMap_eq_nil_iff]
    intro idx' _
    rw [List.flatMap_eq_nil_iff]
    intro col' _
    by_cases h : col' ∈ T.cols
    · rw [if_pos h]
      exact compareCell_self idx' col' _ _
    · rw [if_neg h]
  · intro h1 h2
    unfold compareCell
    rw [if_pos ⟨h1, h2⟩]
  · intro h1 h2 h3
    unfold compareCell
    rw [if_neg (fun hc => by rw [h1] at hc; exact Bool.false_ne_true hc.1)]
    rw [if_neg ?_]
    rintro (hne | hpe)
    · rw [h1, h2] at hne
      exact hne rfl
    · exact hpe h3
  · intro h
    unfold compareCell
    have hfst : ¬(oldV.isNa = true ∧ newV.isNa = true) := by
      rcases h with hne | ⟨h1, _, _⟩
      · exact fun hc => hne (hc.1.trans hc.2.symm)
      · exact fun hc => by rw [h1] at hc; exact Bool.false_ne_true hc.1
    have hsnd : oldV.isNa ≠ newV.isNa ∨ ¬(pyEq oldV newV = true) := by
      rcases h with hne | ⟨_, _, h3⟩
      · exact Or.inl hne
      · exact Or.inr (fun hp => Bool.false_ne_true (h3 ▸ hp))
    rw [if_neg hfst, if_pos hsnd]

theorem compare_dataframes_self_witness :
    compare_dataframes (DataFrame.mk ["a", "b"]
        [[Val.vNum ⟨1, 1⟩, Val.vNull], [Val.vStr "x", Val.vBool true]])
      (DataFrame.mk ["a", "b"]
        [[Val.vNum ⟨1, 1⟩, Val.vNull], [Val.vStr "x", Val.vBool true]]) "a" = [] ∧
    compareCell 0 "c" "k" Val.vNull (Val.vStr "x") =
      [CellChange.mk 0 "c" "k" none (some (Val.vStr "x")) ChangeType.modified none none] := by
  have h := compare_dataframes_self_and_cell_semantics
    (DataFrame.mk ["a", "b"]
      [[Val.vNum ⟨1, 1⟩, Val.vNull], [Val.vStr "x", Val.vBool true]])
    "a" 0 "c" "k" Val.vNull (Val.vStr "x")
  refine ⟨h.1, (h.2.2.2 (by decide)).trans (by decide)⟩

/-- C9: in the conditional rule engine (modelled from the spec, whose source
is absent from the repository), a `CellChange` is emitted for an action iff
the old and new values differ under the rule that two values are equal iff
both are null or neither is null and they compare equal by native equality;
`setValue` with an equal value emits no change, and with a different value
emits exactly one change carrying the correct old and new values. -/
theorem ruleEngine_change_detection
    (act : RuleAction) (target : DataFrame) (rowIdx : Nat) (col : String)
    (srcRow : Option Row) (keyValue stepId stepName : String) (v : Val) :
    ((applyAction act target rowIdx col srcRow keyValue stepId stepName).2 ≠ [] ↔
      valuesEqual (target.cellAt rowIdx col)
        (actionNewValue act (target.cellAt rowIdx col) srcRow) = false) ∧
    (valuesEqual (target.cellAt rowIdx col) v = true →
      (applyAction (RuleAction.setValue v) target rowIdx col srcRow keyValue stepId
        stepName).2 = []) ∧
    (valuesEqual (target.cellAt rowIdx col) v = false →
      (applyAction (RuleAction.setValue v) target rowIdx col srcRow keyValue stepId
        stepName).2 =
        [CellChange.mk rowIdx col keyValue
          (if (target.cellAt rowIdx col).isNa then none
            else some (target.cellAt rowIdx col))
          (if v.isNa then none else some v) ChangeType.modified (some stepId)
          (some stepName)]) := by
  refine ⟨?_, ?_, ?_⟩
  · unfold applyAction
    by_cases h : valuesEqual (target.cellAt rowIdx col)
        (actionNewValue act (target.cellAt rowIdx col) srcRow) = true
    · rw [if_pos h]
      simp [h]
    · rw [if_neg h]
      simp [Bool.not_eq_true] at h
      simp [h]
  · intro h
    simp only [applyAction, actionNewValue]
    rw [if_pos h]
  · intro h
    simp only [applyAction, actionNewValue]
    rw [if_neg (by rw [h]; exact Bool.false_ne_true)]

theorem ruleEngine_change_detection_witness :
    (applyAction (RuleAction.setValue (Val.vStr "x"))
        (DataFrame.mk ["c"] [[Val.vStr "x"]]) 0 "c" none "K" "s1" "Step 1").2 = [] ∧
    (applyAction (RuleAction.setValue (Val.vStr "y"))
        (DataFrame.mk ["c"] [[Val.vStr "x"]]) 0 "c" none "K" "s1" "Step 1").2 =
      [CellChange.mk 0 "c" "K" (some (Val.vStr "x")) (some (Val.vStr "y"))
        ChangeType.modified (some "s1") (some "Step 1")] := by
  have h1 := ruleEngine_change_detection (RuleAction.setValue (Val.vStr "x"))
    (DataFrame.mk ["c"] [[Val.vStr "x"]]) 0 "c" none "K" "s1" "Step 1" (Val.vStr "x")
  have h2 := ruleEngine_change_detection (RuleAction.setValue (Val.vStr "y"))
    (DataFrame.mk ["c"] [[Val.vStr "x"]]) 0 "c" none "K" "s1" "Step 1" (Val.vStr "y")
  exact ⟨h1.2.1 (by decide), (h2.2.2 (by decide)).trans (by decide)⟩

/-- C10: in the key-mapping path, a file whose id has no (truthy) entry in
the key mapping, or whose mapped key column is absent from that file's
columns, is matched positionally within the key iteration: for the idx-th
key value it contributes its idx-th row when present and is absent
otherwise, independently of the key value itself, and no unmatched-key
sample is ever recorded for that file. -/
theorem unmapped_file_positional_match
    (kms : List (String × String)) (fid : String) (df : DataFrame)
    (h : mappingOf kms fid = none ∨
      ∃ kc, mappingOf kms fid = some kc ∧ kc ∉ df.cols) :
    (∀ idx kv kv', (keyedFileRow kms fid df idx kv).1 = df.rowAt? idx ∧
      keyedFileRow kms fid df idx kv = keyedFileRow kms fid df idx kv') ∧
    (∀ keyVals, unmatchedKeysFor kms fid df keyVals = []) := by
  have hrow : ∀ idx kv, keyedFileRow kms fid df idx kv = (df.rowAt? idx, false) := by
    intro idx kv
    unfold keyedFileRow
    rcases h with h | ⟨kc, hkc, hnc⟩
    · rw [h]
    · rw [hkc]
      dsimp only
      rw [if_neg hnc]
  refine ⟨?_, ?_⟩
  · intro idx kv kv'
    rw [hrow idx kv, hrow idx kv']
    exact ⟨rfl, rfl⟩
  · intro keyVals
    unfold unmatchedKeysFor
    have hfil : (keyVals.enum.filter
        (fun p => (keyedFileRow kms fid df p.1 p.2).2)) = [] := by
      rw [List.filter_eq_nil_iff]
      intro p _
      rw [hrow p.1 p.2]
      simp
    rw [hfil]
    rfl

theorem unmapped_file_positional_match_witness :
    (keyedFileRow [("g", "k")] "f" (DataFrame.mk ["c"] [[Val.vStr "a"]]) 0
        (KeyVal.key "zzz")).1 = some (Row.mk ["c"] [Val.vStr "a"]) ∧
    unmatchedKeysFor [("g", "k")] "f" (DataFrame.mk ["c"] [[Val.vStr "a"]])
        [KeyVal.key "zzz"] = [] := by
  have h := unmapped_file_positional_match [("g", "k")] "f"
    (DataFrame.mk ["c"] [[Val.vStr "a"]]) (Or.inl (by decide))
  exact ⟨((h.1 0 (KeyVal.key "zzz") (KeyVal.key "zzz")).1).trans (by decide),
    h.2 [KeyVal.key "zzz"]⟩
